import Mathlib

/-!
Verification model of the serverless deal line-item aggregation handler
`src/app/app.functions/get-deal-line-items.js` (`exports.main`).

The handler is shallowly embedded as a pure Lean function. External calls
(deal fetch, association fetch, line-item batch read, product batch read)
are modelled by an `Env` oracle holding each call's outcome; the model
returns the JSON response envelope together with the ordered trace of
external calls issued. JavaScript property values that flow through
`String(...)`, `parseInt` and `parseFloat` are modelled by `JSVal`, which
includes an `exotic` constructor standing for an object whose string
coercion throws (the only way the per-item formatting `try` block can
throw). Numbers are modelled as `Int` (parseInt results) and `Rat`
(parseFloat results, the decimal-notation fragment). HubSpot CRM property
values are strings or absent, hence `JSVal.str`/`JSVal.undefined` for data
read from the API.
-/

deriving instance DecidableEq for Except

namespace DealLineItems

/-- A JavaScript value in a property slot: `undefined`, a string, or an
object whose coercion to a primitive throws (`exotic`). -/
inductive JSVal where
  | undefined : JSVal
  | str : String → JSVal
  | exotic : JSVal
deriving DecidableEq, Repr

/-- JS truthiness for the values `JSVal` models: `undefined` and `""` are
falsy; any other string and any object are truthy. -/
def truthy : JSVal → Bool
  | .undefined => false
  | .str s => !(s = "")
  | .exotic => true

/-- `a || b` on JS values: the left operand if truthy, else the right. -/
def jsOr (a b : JSVal) : JSVal := if truthy a then a else b

/-- Model of a thrown JS error object: `name`, `message`, optional `status`. -/
structure JsError where
  name : String
  message : String
  status : Option Nat
deriving DecidableEq, Repr

/-- The TypeError raised when `String(...)`/`parseInt`/`parseFloat` coerce
an exotic object to a primitive. -/
def exoticCoercionError : JsError :=
  { name := "TypeError", message := "Cannot convert object to primitive value", status := none }

/-- `String(v)` for a `JSVal`: `undefined` prints as "undefined", strings
are themselves, exotic objects throw. -/
def jsToString : JSVal → Except JsError String
  | .undefined => .ok "undefined"
  | .str s => .ok s
  | .exotic => .error exoticCoercionError

/-- `o?.f || d` where the optional chain yields a string or undefined. -/
def jsOrStr (o : Option String) (d : String) : String :=
  match o with
  | some s => if s = "" then d else s
  | none => d

/-- ASCII whitespace skipped by `parseInt`/`parseFloat`. -/
def isJsSpace (c : Char) : Bool :=
  c = ' ' || c = '\t' || c = '\n' || c = '\r'

/-- Digit-string accumulation used by the numeric parsers. -/
def digitsToNat (ds : List Char) : Nat :=
  ds.foldl (fun n c => n * 10 + (c.toNat - '0'.toNat)) 0

/-- `parseInt(s, 10)`: skip leading whitespace, optional sign, longest
digit prefix; `none` models NaN (no digits). -/
def parseIntJS (s : String) : Option Int :=
  let t := s.toList.dropWhile isJsSpace
  let signed : Int × List Char :=
    match t with
    | '-' :: r => (-1, r)
    | '+' :: r => (1, r)
    | _ => (1, t)
  let ds := signed.2.takeWhile Char.isDigit
  if ds.isEmpty then none
  else some (signed.1 * (digitsToNat ds : Int))

/-- `parseFloat(s)` on the decimal-notation fragment (sign, integer part,
optional fraction); `none` models NaN. Exponent notation and `Infinity`
do not occur in the CRM property values being coerced. -/
def parseFloatJS (s : String) : Option ℚ :=
  let t := s.toList.dropWhile isJsSpace
  let signed : Int × List Char :=
    match t with
    | '-' :: r => (-1, r)
    | '+' :: r => (1, r)
    | _ => (1, t)
  let ip := signed.2.takeWhile Char.isDigit
  let rest := signed.2.dropWhile Char.isDigit
  let fp :=
    match rest with
    | '.' :: r => r.takeWhile Char.isDigit
    | _ => []
  if ip.isEmpty && fp.isEmpty then none
  else
    some (mkRat (signed.1 * (digitsToNat ip * 10 ^ fp.length + digitsToNat fp)) (10 ^ fp.length))

/-- `parseInt(v || '1', 10) || 1` — the quantity coercion (source line 229):
default 1 on missing/empty, NaN, and 0; exotic values throw. -/
def coerceQuantity (v : JSVal) : Except JsError Int :=
  match jsToString (jsOr v (.str "1")) with
  | .error e => .error e
  | .ok s =>
      .ok (match parseIntJS s with
           | none => 1
           | some n => if n = 0 then 1 else n)

/-- `parseFloat(v || '0') || 0` — the price/amount coercion (source lines
230–231): default 0 on missing/empty and NaN; exotic values throw. -/
def coercePrice (v : JSVal) : Except JsError ℚ :=
  match jsToString (jsOr v (.str "0")) with
  | .error e => .error e
  | .ok s => .ok ((parseFloatJS s).getD 0)

/-- First-occurrence deduplication: the semantics of `[...new Set(xs)]`. -/
def dedupFirst {α : Type} [DecidableEq α] : List α → List α
  | [] => []
  | x :: xs => x :: dedupFirst (xs.filter (fun y => y ≠ x))
termination_by l => l.length
decreasing_by
  simp only [List.length_cons]
  exact Nat.lt_succ_of_le (List.length_filter_le _ _)

/-- The `forEach`-push step: `if (!acc.includes(id)) acc.push(id)`;
also one insertion into a JS `Set` (insertion order, skip if present). -/
def pushNew {α : Type} [DecidableEq α] (acc : List α) (x : α) : List α :=
  if x ∈ acc then acc else acc ++ [x]

/-- `[...new Set(xs)]`: insert each element in order, skipping elements
already present. -/
def jsSetDedup {α : Type} [DecidableEq α] (l : List α) : List α :=
  l.foldl pushNew []

/-- The two-source identifier merge (source lines 104–128): concatenate the
association-API ids, push each deal-embedded id not already present, then
`lineItemIds = [...new Set(lineItemIds.filter(Boolean))]`. -/
def mergeLineItemIds (idsFromAssociations idsFromDeal : List String) : List String :=
  let l1 : List String := [] ++ idsFromAssociations
  let l2 := idsFromDeal.foldl pushNew l1
  jsSetDedup (l2.filter (fun y => y ≠ ""))

/-- One entry of an associations `results` array; `id` may be absent. -/
structure AssocResult where
  id : Option String
deriving DecidableEq, Repr

/-- Associations payload: `{ results: [...] }`, each slot possibly null,
the `results` field itself possibly absent. -/
structure AssocResponse where
  results : Option (List (Option AssocResult))
deriving DecidableEq, Repr

/-- `dealResponse.associations`: the `line_items` expansion, if present. -/
structure DealAssociations where
  line_items : Option AssocResponse
deriving DecidableEq, Repr

/-- The deal record returned by `crm.deals.basicApi.getById`. -/
structure DealResponse where
  id : String
  associations : Option DealAssociations
deriving DecidableEq, Repr

/-- Properties of a raw line-item record; CRM values are strings or
absent, but a malformed slot may hold a throwing object (`exotic`).
`hs_product_id` is kept as a plain optional string since it is used as a
lookup/batch key. -/
structure LineItemProps where
  name : JSVal
  hs_product_id : Option String
  quantity : JSVal
  price : JSVal
  amount : JSVal
  ticket_id : JSVal
  ready_for_fulfillment : JSVal
deriving DecidableEq, Repr

/-- A raw line-item record from the batch read. -/
structure RawLineItem where
  id : JSVal
  properties : Option LineItemProps
deriving DecidableEq, Repr

/-- `crm.lineItems.batchApi.read` payload. -/
structure BatchResponse where
  results : Option (List (Option RawLineItem))
deriving DecidableEq, Repr

/-- Properties of a raw product record. -/
structure ProductProps where
  name : Option String
  price : Option String
  description : Option String
  hs_sku : Option String
deriving DecidableEq, Repr

/-- A raw product record from the product batch read. -/
structure RawProduct where
  id : Option String
  properties : Option ProductProps
deriving DecidableEq, Repr

/-- `crm.products.batchApi.read` payload. -/
structure ProductsResponse where
  results : Option (List (Option RawProduct))
deriving DecidableEq, Repr

/-- A normalized `productsMap` entry (source lines 200–206). -/
structure Product where
  id : String
  name : String
  price : ℚ
  description : String
  sku : String
deriving DecidableEq, Repr

/-- The `productsMap` JS object: string keys to normalized products. -/
abbrev ProductsMap := List (String × Product)

/-- JS object assignment `map[k] = v`: overwrite an existing key in place,
otherwise append. -/
def mapInsert (m : ProductsMap) (k : String) (v : Product) : ProductsMap :=
  if m.any (fun p => p.1 = k) then
    m.map (fun p => if p.1 = k then (k, v) else p)
  else m ++ [(k, v)]

/-- JS property read `map[k]`, `undefined` when absent. -/
def mapLookup (m : ProductsMap) (k : String) : Option Product :=
  (m.find? (fun p => p.1 = k)).map Prod.snd

/-- The `reduce` building `productsMap` (source lines 197–210): keep
records that are non-null with a truthy id; normalize fields with `|| ''`
and `parseFloat(... || '0') || 0` fallbacks. -/
def buildProductsMap (resp : ProductsResponse) : ProductsMap :=
  match resp.results with
  | none => []
  | some rs =>
      rs.foldl
        (fun m p =>
          match p with
          | none => m
          | some prod =>
              match prod.id with
              | none => m
              | some pid =>
                  if pid = "" then m
                  else
                    mapInsert m pid
                      { id := pid
                        name := jsOrStr (prod.properties.bind ProductProps.name) ""
                        price := (parseFloatJS (jsOrStr (prod.properties.bind ProductProps.price) "0")).getD 0
                        description := jsOrStr (prod.properties.bind ProductProps.description) ""
                        sku := jsOrStr (prod.properties.bind ProductProps.hs_sku) "" })
        []

/-- `results.map(r => r?.id).filter(Boolean)` — ids of an association
results array, dropping null slots, missing ids and empty strings. -/
def extractIds (rs : List (Option AssocResult)) : List String :=
  rs.filterMap (fun r => (r.bind AssocResult.id).bind (fun s => if s = "" then none else some s))

/-- Ids contributed by the direct associations API (source lines 98–113):
a failed call is replaced by `{ results: [] }`, and the contribution is
only taken when `results` exists and is non-empty. -/
def extractAssocIds (assocResult : Except JsError AssocResponse) : List String :=
  let associationsResponse :=
    match assocResult with
    | .error _ => ({ results := some [] } : AssocResponse)
    | .ok r => r
  match associationsResponse.results with
  | some rs => if rs.length > 0 then extractIds rs else []
  | none => []

/-- Ids embedded in the deal record
(`dealResponse?.associations?.line_items?.results`, source lines 116–125). -/
def extractDealIds (dealResponse : DealResponse) : List String :=
  match (dealResponse.associations.bind DealAssociations.line_items).bind AssocResponse.results with
  | some rs => extractIds rs
  | none => []

/-- The merged, deduplicated working set of line-item ids for one request. -/
def mergedIds (dealResponse : DealResponse) (assocResult : Except JsError AssocResponse) : List String :=
  mergeLineItemIds (extractAssocIds assocResult) (extractDealIds dealResponse)

/-- The output view-model built per line item (source lines 225–241).
`readyForFulfillment` is `none` for the placeholder, which omits the
field. -/
structure LineItemView where
  id : String
  productId : String
  productName : String
  quantity : Int
  price : ℚ
  amount : ℚ
  product : Option Product
  ticketId : String
  readyForFulfillment : Option String
deriving DecidableEq, Repr

/-- `item?.id` as a JS value. -/
def optId (item : Option RawLineItem) : JSVal :=
  match item with
  | some r => r.id
  | none => .undefined

/-- `item?.properties?.<f>` as a JS value. -/
def optProp (f : LineItemProps → JSVal) (item : Option RawLineItem) : JSVal :=
  match item.bind RawLineItem.properties with
  | some ps => f ps
  | none => .undefined

/-- `item?.properties?.hs_product_id`. -/
def optProductId (item : Option RawLineItem) : Option String :=
  (item.bind RawLineItem.properties).bind LineItemProps.hs_product_id

/-- The happy-path view construction inside the per-item `try` (source
lines 221–241). Failure points are the `String(...)`/`parseInt`/`parseFloat`
coercions, checked in the evaluation order of the object literal. -/
def formatOne (pm : ProductsMap) (index : Nat) (item : Option RawLineItem) :
    Except JsError LineItemView :=
  let productId := jsOrStr (optProductId item) ""
  let product := mapLookup pm productId
  match jsToString (jsOr (optId item) (.str ("item-" ++ toString index))) with
  | .error e => .error e
  | .ok idStr =>
  match jsToString (jsOr (optProp LineItemProps.name item)
      (.str (jsOrStr (product.map Product.name) "Unknown Product"))) with
  | .error e => .error e
  | .ok nameStr =>
  match coerceQuantity (optProp LineItemProps.quantity item) with
  | .error e => .error e
  | .ok q =>
  match coercePrice (optProp LineItemProps.price item) with
  | .error e => .error e
  | .ok pr =>
  match coercePrice (optProp LineItemProps.amount item) with
  | .error e => .error e
  | .ok am =>
  match jsToString (jsOr (optProp LineItemProps.ticket_id item) (.str "")) with
  | .error e => .error e
  | .ok tk =>
  match jsToString (jsOr (optProp LineItemProps.ready_for_fulfillment item) (.str "")) with
  | .error e => .error e
  | .ok rff =>
      -- The nested product literal copies the already-normalized map entry
      -- field by field (`String(product.id || '')` etc. are the identity on
      -- the normalized strings, `product.price || 0` on the number).
      .ok { id := idStr, productId := productId, productName := nameStr,
            quantity := q, price := pr, amount := am,
            product := product, ticketId := tk, readyForFulfillment := some rff }

/-- The `catch` fallback view (source lines 245–254); its own id coercion
can still throw, which then propagates to the top-level handler. -/
def placeholderView (index : Nat) (item : Option RawLineItem) :
    Except JsError LineItemView :=
  match jsToString (jsOr (optId item) (.str ("error-" ++ toString index))) with
  | .error e => .error e
  | .ok idStr =>
      .ok { id := idStr, productId := "", productName := "Error loading item",
            quantity := 0, price := 0, amount := 0, product := none,
            ticketId := "", readyForFulfillment := none }

/-- One iteration of the formatting `map`: per-item `try`/`catch`. -/
def formatCaught (pm : ProductsMap) (index : Nat) (item : Option RawLineItem) :
    Except JsError LineItemView :=
  match formatOne pm index item with
  | .ok v => .ok v
  | .error _ => placeholderView index item

/-- The formatting `map` over the batch results, threading the index; the
trailing `.filter(Boolean)` of the source drops nothing because every
constructed view is a truthy object. -/
def formatAll (pm : ProductsMap) : Nat → List (Option RawLineItem) →
    Except JsError (List LineItemView)
  | _, [] => .ok []
  | i, item :: rest =>
      match formatCaught pm i item with
      | .error e => .error e
      | .ok v =>
          match formatAll pm (i + 1) rest with
          | .error e => .error e
          | .ok vs => .ok (v :: vs)

/-- `[...new Set(lineItemResults.map(i => i?.properties?.hs_product_id).filter(Boolean))]`
(source lines 183–185). -/
def extractProductIds (items : List (Option RawLineItem)) : List String :=
  jsSetDedup (items.filterMap (fun item =>
    (optProductId item).bind (fun s => if s = "" then none else some s)))

/-- Invocation parameters; only `dealId` matters to the handler. -/
structure Params where
  dealId : Option String
deriving DecidableEq, Repr

/-- Invocation context; may carry its own `parameters`. -/
structure Context where
  parameters : Option Params
deriving DecidableEq, Repr

/-- The `debug` field echoed in the missing-dealId response. -/
structure DebugEcho where
  context : Context
  parameters : Params
deriving DecidableEq, Repr

/-- `meta` counts of the success envelope. -/
structure MetaCounts where
  totalFound : Nat
  totalFormatted : Nat
  productsFound : Nat
deriving DecidableEq, Repr

/-- `errorDetails`: the failure identity surfaced to the caller
(`name`/`status`, plus the attempted ids on the batch-failure path;
the `response`/`stack` diagnostic sub-objects are not modelled). -/
structure ErrorDetails where
  name : String
  status : Option Nat
  lineItemIds : Option (List String)
deriving DecidableEq, Repr

/-- The response envelope. Absent JSON fields are `none`. -/
structure Response where
  success : Bool
  message : Option String
  data : List LineItemView
  debug : Option DebugEcho
  errorDetails : Option ErrorDetails
  meta : Option MetaCounts
deriving DecidableEq, Repr

/-- The four outbound CRM calls, for tracing which calls an invocation
issues. -/
inductive Call where
  | dealGet : Call
  | assocGet : Call
  | lineItemsBatch : Call
  | productsBatch : Call
deriving DecidableEq, Repr

/-- Outcome oracle for the external world: token presence and each
outbound call's result. -/
structure Env where
  hasToken : Bool
  deal : Except JsError DealResponse
  assoc : Except JsError AssocResponse
  lineItems : Except JsError BatchResponse
  products : Except JsError ProductsResponse
deriving Repr

/-- JS truthiness filter on an optional string (empty string is falsy). -/
def truthyOptStr : Option String → Option String
  | some s => if s = "" then none else some s
  | none => none

/-- `parameters?.dealId || context?.parameters?.dealId` (source line 8). -/
def resolveDealId (params : Params) (ctx : Context) : Option String :=
  match truthyOptStr params.dealId with
  | some s => some s
  | none => truthyOptStr (ctx.parameters.bind Params.dealId)

/-- Missing-dealId envelope (source lines 20–28). -/
def validationResponse (ctx : Context) (params : Params) : Response :=
  { success := false, message := some "Deal ID is required", data := [],
    debug := some { context := ctx, parameters := params },
    errorDetails := none, meta := none }

/-- Missing-token envelope (source lines 36–40). -/
def configResponse : Response :=
  { success := false, message := some "Server configuration error: missing access token",
    data := [], debug := none, errorDetails := none, meta := none }

/-- Deal-fetch-failure envelope (source lines 68–81). -/
def dealFailureResponse (dealId : String) (e : JsError) : Response :=
  { success := false,
    message := some ("Failed to fetch deal " ++ dealId ++ ": " ++ e.message),
    data := [], debug := none,
    errorDetails := some { name := e.name, status := e.status, lineItemIds := none },
    meta := none }

/-- Empty-working-set envelope (source lines 132–136). -/
def noLineItemsResponse : Response :=
  { success := true, message := some "No line items found for this deal",
    data := [], debug := none, errorDetails := none, meta := none }

/-- Line-item-batch-failure envelope (source lines 165–174). -/
def batchFailureResponse (e : JsError) (ids : List String) : Response :=
  { success := false,
    message := some ("Failed to fetch line items: " ++ e.message),
    data := [], debug := none,
    errorDetails := some { name := e.name, status := e.status, lineItemIds := some ids },
    meta := none }

/-- Top-level catch envelope (source lines 277–291);
`error.message || 'Failed to fetch line items'`. -/
def unexpectedResponse (e : JsError) : Response :=
  { success := false,
    message := some (if e.message = "" then "Failed to fetch line items" else e.message),
    data := [], debug := none,
    errorDetails := some { name := e.name, status := e.status, lineItemIds := none },
    meta := none }

/-- Step 5 (source lines 183–216): derive the distinct product references
and, only when non-empty, consult the product batch call; its failure is
recovered with the empty map. Also yields the call trace up to this
point. -/
def productsPhase (liResp : BatchResponse) (products : Except JsError ProductsResponse) :
    ProductsMap × List Call :=
  let productIds := extractProductIds (liResp.results.getD [])
  if productIds.length > 0 then
    match products with
    | .error _ => ([], [Call.dealGet, .assocGet, .lineItemsBatch, .productsBatch])
    | .ok pResp =>
        (buildProductsMap pResp, [Call.dealGet, .assocGet, .lineItemsBatch, .productsBatch])
  else ([], [Call.dealGet, .assocGet, .lineItemsBatch])

/-- Steps 5–7 after a successful line-item batch read: product join and
per-item formatting; a formatting throw that escapes the per-item catch
reaches the top-level handler (`unexpectedResponse`). -/
def runAfterBatch (lineItemIds : List String) (liResp : BatchResponse)
    (products : Except JsError ProductsResponse) : Response × List Call :=
  let lineItemResults := liResp.results.getD []
  let pmCalls := productsPhase liResp products
  match formatAll pmCalls.1 0 lineItemResults with
  | .ok lineItems =>
      ({ success := true, message := none, data := lineItems,
         debug := none, errorDetails := none,
         meta := some { totalFound := lineItemIds.length,
                        totalFormatted := lineItems.length,
                        productsFound := pmCalls.1.length } },
       pmCalls.2)
  | .error e => (unexpectedResponse e, pmCalls.2)

/-- The handler `exports.main`, as a function of the invocation input and
the external-call oracle; returns the envelope and the ordered trace of
outbound calls issued. -/
def main (ctx : Context) (params : Params) (env : Env) : Response × List Call :=
  match resolveDealId params ctx with
  | none => (validationResponse ctx params, [])
  | some dealId =>
      if env.hasToken = false then (configResponse, [])
      else
        match env.deal with
        | .error e => (dealFailureResponse dealId e, [.dealGet])
        | .ok dealResponse =>
            let lineItemIds := mergedIds dealResponse env.assoc
            if lineItemIds.length = 0 then
              (noLineItemsResponse, [.dealGet, .assocGet])
            else
              match env.lineItems with
              | .error e =>
                  (batchFailureResponse e lineItemIds,
                   [.dealGet, .assocGet, .lineItemsBatch])
              | .ok liResp => runAfterBatch lineItemIds liResp env.products

/-! ### Properties of the Set-based deduplication and the two-source merge -/

theorem dedupFirst_mem {α : Type} [DecidableEq α] (l : List α) (x : α) :
    x ∈ dedupFirst l ↔ x ∈ l := by
  induction l using dedupFirst.induct with
  | case1 => simp [dedupFirst]
  | case2 y ys ih =>
      simp only [dedupFirst, List.mem_cons, ih, List.mem_filter, decide_eq_true_eq]
      constructor
      · rintro (rfl | ⟨h, _⟩)
        · exact Or.inl rfl
        · exact Or.inr h
      · rintro (rfl | h)
        · exact Or.inl rfl
        · by_cases hxy : x = y
          · exact Or.inl hxy
          · exact Or.inr ⟨h, hxy⟩

theorem dedupFirst_nodup {α : Type} [DecidableEq α] (l : List α) :
    (dedupFirst l).Nodup := by
  induction l using dedupFirst.induct with
  | case1 => simp [dedupFirst]
  | case2 y ys ih =>
      rw [dedupFirst, List.nodup_cons]
      refine ⟨?_, ih⟩
      intro hmem
      rw [dedupFirst_mem, List.mem_filter] at hmem
      simp at hmem

theorem dedupFirst_eq_self {α : Type} [DecidableEq α] (l : List α) (h : l.Nodup) :
    dedupFirst l = l := by
  induction l using dedupFirst.induct with
  | case1 => simp [dedupFirst]
  | case2 y ys ih =>
      rw [List.nodup_cons] at h
      have hf : ys.filter (fun z => z ≠ y) = ys := by
        rw [List.filter_eq_self]
        intro a ha
        simp only [ne_eq, decide_eq_true_eq]
        intro hay
        exact h.1 (hay ▸ ha)
      rw [dedupFirst, hf]
      rw [hf] at ih
      rw [ih h.2]

theorem pushNew_mem {α : Type} [DecidableEq α] (acc : List α) (x y : α) :
    y ∈ pushNew acc x ↔ y ∈ acc ∨ y = x := by
  unfold pushNew
  split
  · constructor
    · exact Or.inl
    · rintro (h | rfl)
      · exact h
      · assumption
  · simp [List.mem_append]

theorem foldl_pushNew_mem {α : Type} [DecidableEq α] (b : List α) :
    ∀ (acc : List α) (x : α), x ∈ b.foldl pushNew acc ↔ x ∈ acc ∨ x ∈ b := by
  induction b with
  | nil => simp
  | cons y ys ih =>
      intro acc x
      simp only [List.foldl_cons, ih, pushNew_mem, List.mem_cons]
      tauto

theorem pushNew_nodup {α : Type} [DecidableEq α] (acc : List α) (x : α)
    (h : acc.Nodup) : (pushNew acc x).Nodup := by
  unfold pushNew
  split
  · exact h
  · rw [List.nodup_append]
    refine ⟨h, List.nodup_singleton x, ?_⟩
    intro a ha
    simp only [List.mem_singleton]
    intro rfl_eq
    subst rfl_eq
    exact absurd ha (by assumption)

theorem foldl_pushNew_nodup {α : Type} [DecidableEq α] (b : List α) :
    ∀ acc : List α, acc.Nodup → (b.foldl pushNew acc).Nodup := by
  induction b with
  | nil => intro acc h; simpa using h
  | cons y ys ih =>
      intro acc h
      exact ih (pushNew acc y) (pushNew_nodup acc y h)

theorem filter_pushNew {α : Type} [DecidableEq α] (p : α → Bool) (acc : List α) (x : α) :
    (pushNew acc x).filter p = if p x then pushNew (acc.filter p) x else acc.filter p := by
  unfold pushNew
  by_cases hmem : x ∈ acc
  · simp only [hmem, if_true]
    by_cases hp : p x
    · have : x ∈ acc.filter p := List.mem_filter.mpr ⟨hmem, hp⟩
      simp [hp, this]
    · simp [hp]
  · simp only [hmem, if_false, List.filter_append]
    by_cases hp : p x
    · have : x ∉ acc.filter p := fun hc => hmem (List.mem_filter.mp hc).1
      simp [hp, this]
    · simp [hp]

theorem filter_foldl_pushNew {α : Type} [DecidableEq α] (p : α → Bool) (b : List α) :
    ∀ acc : List α, (b.foldl pushNew acc).filter p = (b.filter p).foldl pushNew (acc.filter p) := by
  induction b with
  | nil => intro acc; rfl
  | cons y ys ih =>
      intro acc
      simp only [List.foldl_cons, ih, filter_pushNew]
      by_cases hp : p y
      · simp [hp, List.filter_cons, ih]
      · simp [hp, List.filter_cons]

theorem dedupFirst_append_cons_of_mem {α : Type} [DecidableEq α] :
    ∀ (n : Nat) (acc : List α), acc.length ≤ n → ∀ (x : α), x ∈ acc → ∀ (t : List α),
      dedupFirst (acc ++ x :: t) = dedupFirst (acc ++ t) := by
  intro n
  induction n with
  | zero =>
      intro acc hlen x hx t
      have : acc = [] := List.length_eq_zero.mp (Nat.le_zero.mp hlen)
      subst this
      simp at hx
  | succ m ih =>
      intro acc hlen x hx t
      match acc with
      | [] => simp at hx
      | a :: as =>
          by_cases hxa : x = a
          · subst hxa
            simp only [List.cons_append, dedupFirst]
            congr 1
            rw [List.filter_append, List.filter_append, List.filter_cons]
            simp
          · have hxas : x ∈ as := by
              rcases List.mem_cons.mp hx with h | h
              · exact absurd h hxa
              · exact h
            have hxf : x ∈ as.filter (fun z => z ≠ a) :=
              List.mem_filter.mpr ⟨hxas, by simp [hxa]⟩
            have hlf : (as.filter (fun z => z ≠ a)).length ≤ m := by
              have h1 := List.length_filter_le (fun z => decide (z ≠ a)) as
              simp only [List.length_cons] at hlen
              omega
            simp only [List.cons_append, dedupFirst]
            congr 1
            rw [List.filter_append, List.filter_cons]
            have hq : decide (x ≠ a) = true := by simp [hxa]
            rw [hq]
            simp only [if_true]
            rw [List.filter_append]
            exact ih (as.filter (fun z => z ≠ a)) hlf x hxf (t.filter (fun z => z ≠ a))

theorem dedupFirst_foldl_pushNew {α : Type} [DecidableEq α] (b : List α) :
    ∀ acc : List α, dedupFirst (b.foldl pushNew acc) = dedupFirst (acc ++ b) := by
  induction b with
  | nil => intro acc; simp
  | cons y ys ih =>
      intro acc
      simp only [List.foldl_cons]
      rw [ih]
      unfold pushNew
      by_cases hmem : y ∈ acc
      · simp only [hmem, if_true]
        exact (dedupFirst_append_cons_of_mem acc.length acc le_rfl y hmem ys).symm
      · simp [hmem, List.append_assoc]

theorem jsSetDedup_eq_dedupFirst {α : Type} [DecidableEq α] (l : List α) :
    jsSetDedup l = dedupFirst l := by
  have h1 : jsSetDedup l = dedupFirst (jsSetDedup l) :=
    (dedupFirst_eq_self _ (foldl_pushNew_nodup l [] (List.nodup_nil))).symm
  rw [h1]
  unfold jsSetDedup
  rw [dedupFirst_foldl_pushNew]
  simp

/-- The merge is literally first-occurrence deduplication of the
concatenated, Boolean-filtered source lists. -/
theorem mergeLineItemIds_eq_dedupFirst (a b : List String) :
    mergeLineItemIds a b = dedupFirst ((a ++ b).filter (fun y => y ≠ "")) := by
  unfold mergeLineItemIds
  rw [jsSetDedup_eq_dedupFirst, List.nil_append, filter_foldl_pushNew,
    dedupFirst_foldl_pushNew, ← List.filter_append]

theorem mergeLineItemIds_mem (a b : List String) (x : String) :
    x ∈ mergeLineItemIds a b ↔ (x ∈ a ∨ x ∈ b) ∧ x ≠ "" := by
  rw [mergeLineItemIds_eq_dedupFirst, dedupFirst_mem, List.mem_filter, List.mem_append]
  simp

theorem mergeLineItemIds_nodup (a b : List String) : (mergeLineItemIds a b).Nodup := by
  rw [mergeLineItemIds_eq_dedupFirst]
  exact dedupFirst_nodup _

theorem mergeLineItemIds_length_of_disjoint (a b : List String)
    (ha : a.Nodup) (hb : b.Nodup) (hd : ∀ x ∈ a, x ∉ b)
    (hea : "" ∉ a) (heb : "" ∉ b) :
    (mergeLineItemIds a b).length = a.length + b.length := by
  rw [mergeLineItemIds_eq_dedupFirst]
  have hfil : (a ++ b).filter (fun y => y ≠ "") = a ++ b := by
    rw [List.filter_eq_self]
    intro x hx
    simp only [ne_eq, decide_eq_true_eq]
    rcases List.mem_append.mp hx with h | h
    · intro he; subst he; exact hea h
    · intro he; subst he; exact heb h
  have hnd : (a ++ b).Nodup :=
    List.Nodup.append ha hb (fun x hxa hxb => hd x hxa hxb)
  rw [hfil, dedupFirst_eq_self _ hnd, List.length_append]

/-! ### Properties of the per-item formatting layer -/

/-- A record's `id` slot converts to a string without throwing (it is a
string or absent, as CRM ids are); this is what the placeholder needs. -/
def idSafe (item : Option RawLineItem) : Prop := optId item ≠ JSVal.exotic

instance (item : Option RawLineItem) : Decidable (idSafe item) :=
  inferInstanceAs (Decidable (optId item ≠ JSVal.exotic))

/-- The pure value of `v || d` when `v` is a string or undefined. -/
def jsValOr (v : JSVal) (d : String) : String :=
  match v with
  | .str t => if t = "" then d else t
  | _ => d

/-- Evaluating `String(v || d)` for a non-throwing scrutinee. -/
theorem jsToString_jsOr_str (v : JSVal) (d s : String)
    (h : jsToString (jsOr v (.str d)) = .ok s) :
    s = jsValOr v d := by
  cases v with
  | undefined =>
      simp only [jsOr, truthy, Bool.false_eq_true, if_false, jsToString, Except.ok.injEq] at h
      exact h.symm
  | str t =>
      by_cases ht : t = ""
      · subst ht
        simp only [jsOr, truthy, jsToString] at h
        simp only [jsValOr, if_pos rfl]
        simpa using h.symm
      · simp only [jsOr, truthy, ht, jsToString] at h
        simp only [jsValOr, ht, if_false]
        simpa [ht] using h.symm
  | exotic =>
      simp [jsOr, truthy, jsToString] at h

/-- The productName join rule as the spec words it: the line item's own
name, else the matched product's name, else "Unknown Product". -/
def productNameRule (ownName : JSVal) (product : Option Product) : String :=
  jsValOr ownName (jsOrStr (product.map Product.name) "Unknown Product")

/-- What a successfully formatted view contains: the product field is the
map lookup of the item's product reference, and the name follows the
fallback chain. -/
theorem formatOne_ok_spec (pm : ProductsMap) (i : Nat) (item : Option RawLineItem)
    (v : LineItemView) (h : formatOne pm i item = .ok v) :
    v.product = mapLookup pm (jsOrStr (optProductId item) "") ∧
    v.productName = productNameRule (optProp LineItemProps.name item)
      (mapLookup pm (jsOrStr (optProductId item) "")) := by
  simp only [formatOne] at h
  split at h
  · simp at h
  · split at h
    · simp at h
    · split at h
      · simp at h
      · split at h
        · simp at h
        · split at h
          · simp at h
          · split at h
            · simp at h
            · split at h
              · simp at h
              · rename_i x1 idStr hid x2 nameStr hname x3 q hq x4 pr hpr x5 am ham x6 tk htk x7 rff hrff
                injection h with h
                subst h
                exact ⟨rfl, jsToString_jsOr_str _ _ _ hname⟩

/-- The placeholder succeeds whenever the record's id is convertible, and
then carries the documented minimal fields. -/
theorem placeholderView_ok (i : Nat) (item : Option RawLineItem) (h : idSafe item) :
    ∃ s, placeholderView i item =
      .ok { id := s, productId := "", productName := "Error loading item",
            quantity := 0, price := 0, amount := 0, product := none,
            ticketId := "", readyForFulfillment := none } := by
  unfold placeholderView
  cases hv : optId item with
  | undefined => exact ⟨_, rfl⟩
  | str t =>
      by_cases ht : t = ""
      · subst ht
        exact ⟨"error-" ++ toString i, by simp [jsOr, truthy, jsToString]⟩
      · exact ⟨t, by simp [jsOr, truthy, ht, jsToString]⟩
  | exotic => exact absurd hv h

/-- One guarded formatting step never fails on an id-convertible record,
and substitutes the placeholder exactly when the happy path throws. -/
theorem formatCaught_ok (pm : ProductsMap) (i : Nat) (item : Option RawLineItem)
    (h : idSafe item) :
    ∃ v, formatCaught pm i item = .ok v ∧
      ((∃ e, formatOne pm i item = .error e) → placeholderView i item = .ok v) := by
  unfold formatCaught
  cases hfo : formatOne pm i item with
  | ok w => exact ⟨w, rfl, by rintro ⟨e, he⟩; simp at he⟩
  | error e =>
      obtain ⟨s, hs⟩ := placeholderView_ok i item h
      exact ⟨_, hs, fun _ => hs⟩

/-- The formatting map: on id-convertible records it always succeeds, one
output view per input record in order; positions where the happy path
threw hold the placeholder. -/
theorem formatAll_ok (pm : ProductsMap) :
    ∀ (items : List (Option RawLineItem)) (i : Nat), (∀ o ∈ items, idSafe o) →
    ∃ vs, formatAll pm i items = .ok vs ∧ vs.length = items.length ∧
      ∀ (j : Nat) (hj : j < items.length) (hv : j < vs.length),
        (∃ e, formatOne pm (i + j) (items.get ⟨j, hj⟩) = .error e) →
        placeholderView (i + j) (items.get ⟨j, hj⟩) = .ok (vs.get ⟨j, hv⟩) := by
  intro items
  induction items with
  | nil =>
      intro i _
      exact ⟨[], rfl, rfl, fun j hj => absurd hj (Nat.not_lt_zero j)⟩
  | cons o rest ih =>
      intro i hsafe
      obtain ⟨v, hv, hvph⟩ := formatCaught_ok pm i o (hsafe o (List.mem_cons_self o rest))
      obtain ⟨vs, hvs, hlen, hidx⟩ :=
        ih (i + 1) (fun o' ho' => hsafe o' (List.mem_cons_of_mem o ho'))
      refine ⟨v :: vs, ?_, by simpa using hlen, ?_⟩
      · unfold formatAll
        rw [hv, hvs]
      · intro j hj hvlt herr
        match j with
        | 0 =>
            simp only [Nat.add_zero] at herr ⊢
            simpa using hvph (by simpa using herr)
        | Nat.succ k =>
            have hj' : k < rest.length := by simpa using hj
            have hv' : k < vs.length := by simpa using hvlt
            have harith : i + (k + 1) = (i + 1) + k := by omega
            simp only [List.get_cons_succ]
            rw [harith] at herr ⊢
            exact hidx k hj' hv' herr

/-- The placeholder always has a null product. -/
theorem placeholderView_product_none (i : Nat) (item : Option RawLineItem)
    (v : LineItemView) (h : placeholderView i item = .ok v) : v.product = none := by
  unfold placeholderView at h
  split at h
  · cases h
  · injection h with h
    subst h
    rfl

/-- With the empty product map, every formatted view (happy path or
placeholder) has a null product. -/
theorem formatCaught_nil_pm_product_none (i : Nat) (item : Option RawLineItem)
    (v : LineItemView) (h : formatCaught [] i item = .ok v) : v.product = none := by
  unfold formatCaught at h
  cases hfo : formatOne [] i item with
  | ok w =>
      rw [hfo] at h
      injection h with h
      subst h
      exact (formatOne_ok_spec [] i item w hfo).1
  | error e =>
      rw [hfo] at h
      exact placeholderView_product_none i item v h

theorem formatAll_nil_pm_product_none :
    ∀ (items : List (Option RawLineItem)) (i : Nat) (vs : List LineItemView),
      formatAll [] i items = .ok vs → ∀ v ∈ vs, v.product = none := by
  intro items
  induction items with
  | nil =>
      intro i vs h v hv
      unfold formatAll at h
      injection h with h
      subst h
      simp at hv
  | cons o rest ih =>
      intro i vs h v hv
      unfold formatAll at h
      cases hc : formatCaught [] i o with
      | error e => rw [hc] at h; cases h
      | ok w =>
          rw [hc] at h
          cases hrest : formatAll [] (i + 1) rest with
          | error e => rw [hrest] at h; cases h
          | ok ws =>
              rw [hrest] at h
              injection h with h
              subst h
              rcases List.mem_cons.mp hv with rfl | hvw
              · exact formatCaught_nil_pm_product_none i o v hc
              · exact ih (i + 1) ws hrest v hvw

/-- `productsPhase` yields the empty map when the product call failed
(and also when no product ids were referenced). -/
theorem productsPhase_error_pm (liResp : BatchResponse) (e : JsError) :
    (productsPhase liResp (.error e)).1 = [] := by
  by_cases h : (extractProductIds (liResp.results.getD [])).length > 0
  · simp [productsPhase, h]
  · simp [productsPhase, h]

/-- `runAfterBatch` either succeeds with the formatted views or maps a
formatting throw to the top-level unexpected envelope. -/
theorem runAfterBatch_eq (ids : List String) (liResp : BatchResponse)
    (prods : Except JsError ProductsResponse) :
    (∃ vs, formatAll (productsPhase liResp prods).1 0 (liResp.results.getD []) = .ok vs ∧
      runAfterBatch ids liResp prods =
        ({ success := true, message := none, data := vs, debug := none, errorDetails := none,
           meta := some { totalFound := ids.length, totalFormatted := vs.length,
                          productsFound := (productsPhase liResp prods).1.length } },
         (productsPhase liResp prods).2)) ∨
    (∃ e, formatAll (productsPhase liResp prods).1 0 (liResp.results.getD []) = .error e ∧
      runAfterBatch ids liResp prods = (unexpectedResponse e, (productsPhase liResp prods).2)) := by
  cases hf : formatAll (productsPhase liResp prods).1 0 (liResp.results.getD []) with
  | ok vs =>
      left
      refine ⟨vs, rfl, ?_⟩
      simp only [runAfterBatch]
      rw [hf]
  | error e =>
      right
      refine ⟨e, rfl, ?_⟩
      simp only [runAfterBatch]
      rw [hf]

/-- Reaching step 4 with a successful batch read hands over to
`runAfterBatch`. -/
theorem main_ok_batch (ctx : Context) (params : Params) (d : String)
    (dr : DealResponse) (assoc : Except JsError AssocResponse)
    (liResp : BatchResponse) (prods : Except JsError ProductsResponse)
    (h1 : resolveDealId params ctx = some d) (h2 : mergedIds dr assoc ≠ []) :
    main ctx params ⟨true, .ok dr, assoc, .ok liResp, prods⟩ =
      runAfterBatch (mergedIds dr assoc) liResp prods := by
  have hlen : ¬ ((mergedIds dr assoc).length = 0) :=
    fun hc => h2 (List.length_eq_zero.mp hc)
  simp [main, h1, hlen]

/-- Exhaustive case shape of a `main` invocation: either the validation
envelope (exactly when the dealId is falsy) or one of the six later
envelopes, none of which carries a `debug` echo. -/
theorem main_cases (ctx : Context) (params : Params) (env : Env) :
    (resolveDealId params ctx = none ∧
      main ctx params env = (validationResponse ctx params, [])) ∨
    (resolveDealId params ctx ≠ none ∧
      ((main ctx params env).1 = configResponse ∨
       (∃ d e, (main ctx params env).1 = dealFailureResponse d e) ∨
       (main ctx params env).1 = noLineItemsResponse ∨
       (∃ e ids, (main ctx params env).1 = batchFailureResponse e ids) ∨
       (∃ e, (main ctx params env).1 = unexpectedResponse e) ∨
       (∃ vs n k, (main ctx params env).1 =
         { success := true, message := none, data := vs, debug := none,
           errorDetails := none,
           meta := some { totalFound := n, totalFormatted := vs.length,
                          productsFound := k } }))) := by
  obtain ⟨tok, deal, assoc, li, prods⟩ := env
  cases hr : resolveDealId params ctx with
  | none => exact Or.inl ⟨rfl, by simp [main, hr]⟩
  | some d =>
      right
      refine ⟨by simp, ?_⟩
      cases tok with
      | false => exact Or.inl (by simp [main, hr])
      | true =>
          cases deal with
          | error e => exact Or.inr (Or.inl ⟨d, e, by simp [main, hr]⟩)
          | ok dr =>
              by_cases hlen : (mergedIds dr assoc).length = 0
              · exact Or.inr (Or.inr (Or.inl (by simp [main, hr, hlen])))
              · cases li with
                | error e =>
                    exact Or.inr (Or.inr (Or.inr (Or.inl
                      ⟨e, mergedIds dr assoc, by simp [main, hr, hlen]⟩)))
                | ok liResp =>
                    have hb : main ctx params ⟨true, .ok dr, assoc, .ok liResp, prods⟩ =
                        runAfterBatch (mergedIds dr assoc) liResp prods := by
                      simp [main, hr, hlen]
                    rcases runAfterBatch_eq (mergedIds dr assoc) liResp prods with
                      ⟨vs, _, heq⟩ | ⟨e, _, heq⟩
                    · refine Or.inr (Or.inr (Or.inr (Or.inr (Or.inr
                        ⟨vs, (mergedIds dr assoc).length,
                          (productsPhase liResp prods).1.length, ?_⟩))))
                      rw [hb, heq]
                    · refine Or.inr (Or.inr (Or.inr (Or.inr (Or.inl ⟨e, ?_⟩))))
                      rw [hb, heq]


/-! ### Concrete fixtures used to witness the claims -/

/-- A deal record with embedded line-item associations L2, L3. -/
def mergeExampleDeal : DealResponse :=
  { id := "D1",
    associations := some
      { line_items := some
          { results := some [some { id := some "L2" }, some { id := some "L3" }] } } }

/-- An oracle for the §8 example: association API yields L1, L2; the deal
record embeds L2, L3; the batch read returns no records. -/
def mergeExampleEnv : Env :=
  { hasToken := true,
    deal := .ok mergeExampleDeal,
    assoc := .ok { results := some [some { id := some "L1" }, some { id := some "L2" }] },
    lineItems := .ok { results := some [] },
    products := .ok { results := none } }

/-- An oracle in which every call succeeds and the deal has no
associations at all; used against a whitespace-only dealId. -/
def wsDealEnv : Env :=
  { hasToken := true,
    deal := .ok { id := " ", associations := none },
    assoc := .ok { results := some [] },
    lineItems := .ok { results := none },
    products := .ok { results := none } }

/-- A deal record with no embedded associations. -/
def oneAssocDeal : DealResponse := { id := "D1", associations := none }

/-- An association-API result contributing the single id L1. -/
def oneAssoc : Except JsError AssocResponse :=
  .ok { results := some [some { id := some "L1" }] }

/-- Well-formed line-item properties (all strings or absent). -/
def goodItemProps : LineItemProps :=
  { name := .str "Widget"
    hs_product_id := some "P1"
    quantity := .str "2"
    price := .str "3"
    amount := .str "6"
    ticket_id := .undefined
    ready_for_fulfillment := .undefined }

/-- One well-formed line-item record (string id, string properties). -/
def goodBatch : BatchResponse :=
  { results := some [some { id := .str "7", properties := some goodItemProps }] }

/-- One record whose id slot is an object that throws on string coercion,
so both the happy path and the placeholder throw. -/
def badBatch : BatchResponse :=
  { results := some [some { id := .exotic, properties := none }] }

/-! ## Claims -/

/-- C1: deal-fetch failure (step 1) is fatal — the envelope is
`success=false`, `data=[]`, `errorDetails` derived from the failure, and
the call trace stops at the deal fetch; association-fetch failure
(step 2) is recovered by substituting `{ results: [] }`, after which the
run is identical to one whose association call returned that empty
result (never the reverse asymmetry). -/
theorem claim_C1 :
    (∀ (ctx : Context) (params : Params) (d : String) (e : JsError)
       (assoc : Except JsError AssocResponse) (li : Except JsError BatchResponse)
       (prods : Except JsError ProductsResponse),
       resolveDealId params ctx = some d →
       main ctx params ⟨true, .error e, assoc, li, prods⟩ =
         (dealFailureResponse d e, [.dealGet]) ∧
       (dealFailureResponse d e).success = false ∧
       (dealFailureResponse d e).data = [] ∧
       (dealFailureResponse d e).errorDetails =
         some { name := e.name, status := e.status, lineItemIds := none }) ∧
    (∀ (ctx : Context) (params : Params) (dr : DealResponse) (e : JsError)
       (li : Except JsError BatchResponse) (prods : Except JsError ProductsResponse),
       main ctx params ⟨true, .ok dr, .error e, li, prods⟩ =
         main ctx params ⟨true, .ok dr, .ok { results := some [] }, li, prods⟩) := by
  constructor
  · intro ctx params d e assoc li prods h1
    exact ⟨by simp [main, h1], rfl, rfl, rfl⟩
  · intro ctx params dr e li prods
    cases hr : resolveDealId params ctx with
    | none => simp [main, hr]
    | some d => simp [main, hr, mergedIds, extractAssocIds]

/-- Witness for C1 at a concrete invocation. -/
theorem claim_C1_witness :
    main { parameters := none } { dealId := some "D1" }
      ⟨true, .error { name := "Error", message := "not found", status := some 404 },
       .ok { results := some [] }, .ok { results := none }, .ok { results := none }⟩ =
      (dealFailureResponse "D1" { name := "Error", message := "not found", status := some 404 },
       [.dealGet]) :=
  (claim_C1.1 { parameters := none } { dealId := some "D1" } "D1"
    { name := "Error", message := "not found", status := some 404 }
    (.ok { results := some [] }) (.ok { results := none }) (.ok { results := none })
    (by decide)).1

/-- C2 as frozen is false: for the disjoint non-empty lists
`["L1","L1"]` and `["L2"]` (the first containing an internal duplicate)
the merged set has 2 elements, not 2 + 1 = 3. -/
theorem claim_C2_counterexample :
    (∀ x ∈ (["L1", "L1"] : List String), x ∉ (["L2"] : List String)) ∧
    (["L1", "L1"] : List String) ≠ [] ∧ (["L2"] : List String) ≠ [] ∧
    mergeLineItemIds ["L1", "L1"] ["L2"] = ["L1", "L2"] ∧
    (mergeLineItemIds ["L1", "L1"] ["L2"]).length ≠
      (["L1", "L1"] : List String).length + (["L2"] : List String).length := by
  exact ⟨by decide, by decide, by decide, by decide, by decide⟩

/-- C2 (amended): the merged working set contains every identifier
appearing in either source exactly once, in order of first appearance
(first-occurrence deduplication of the concatenation, empty-string ids
dropped); for disjoint non-empty duplicate-free lists of non-empty
identifiers its size equals the sum of the two lists' sizes; and on the
§8 example the merged set is L1,L2,L3 with `meta.totalFound = 3`. -/
theorem claim_C2 :
    ∀ (a b : List String),
      (mergeLineItemIds a b).Nodup ∧
      (∀ x, x ∈ mergeLineItemIds a b ↔ (x ∈ a ∨ x ∈ b) ∧ x ≠ "") ∧
      mergeLineItemIds a b = dedupFirst ((a ++ b).filter (fun y => y ≠ "")) ∧
      (a.Nodup → b.Nodup → (∀ x ∈ a, x ∉ b) → "" ∉ a → "" ∉ b →
        (mergeLineItemIds a b).length = a.length + b.length) ∧
      mergeLineItemIds ["L1", "L2"] ["L2", "L3"] = ["L1", "L2", "L3"] ∧
      (main { parameters := none } { dealId := some "D1" } mergeExampleEnv).1.meta =
        some { totalFound := 3, totalFormatted := 0, productsFound := 0 } := by
  intro a b
  exact ⟨mergeLineItemIds_nodup a b, mergeLineItemIds_mem a b,
    mergeLineItemIds_eq_dedupFirst a b,
    fun ha hb hd hea heb => mergeLineItemIds_length_of_disjoint a b ha hb hd hea heb,
    by decide, by decide⟩

/-- Witness for C2 at the concrete disjoint duplicate-free lists. -/
theorem claim_C2_witness :
    (mergeLineItemIds ["L1"] ["L2"]).length =
      (["L1"] : List String).length + (["L2"] : List String).length :=
  (claim_C2 ["L1"] ["L2"]).2.2.2.1 (by decide) (by decide) (by decide)
    (by decide) (by decide)

/-- C4: a line-item batch-fetch failure is fatal — `success=false`,
`data=[]`, a message derived from the batch failure, and `errorDetails`
carrying the attempted identifiers — for any outcome of the association
fetch and the (never reached) product fetch. -/
theorem claim_C4 :
    ∀ (ctx : Context) (params : Params) (d : String) (dr : DealResponse)
      (assoc : Except JsError AssocResponse) (e : JsError)
      (prods : Except JsError ProductsResponse),
      resolveDealId params ctx = some d →
      mergedIds dr assoc ≠ [] →
      main ctx params ⟨true, .ok dr, assoc, .error e, prods⟩ =
        (batchFailureResponse e (mergedIds dr assoc),
         [.dealGet, .assocGet, .lineItemsBatch]) ∧
      (batchFailureResponse e (mergedIds dr assoc)).success = false ∧
      (batchFailureResponse e (mergedIds dr assoc)).data = [] ∧
      (batchFailureResponse e (mergedIds dr assoc)).message =
        some ("Failed to fetch line items: " ++ e.message) ∧
      (batchFailureResponse e (mergedIds dr assoc)).errorDetails =
        some { name := e.name, status := e.status,
               lineItemIds := some (mergedIds dr assoc) } := by
  intro ctx params d dr assoc e prods h1 h2
  have hlen : ¬ ((mergedIds dr assoc).length = 0) :=
    fun hc => h2 (List.length_eq_zero.mp hc)
  exact ⟨by simp [main, h1, hlen], rfl, rfl, rfl, rfl⟩

/-- Witness for C4 at a concrete invocation. -/
theorem claim_C4_witness :
    main { parameters := none } { dealId := some "D1" }
      ⟨true, .ok oneAssocDeal, oneAssoc,
       .error { name := "Error", message := "boom", status := some 500 },
       .ok { results := none }⟩ =
      (batchFailureResponse { name := "Error", message := "boom", status := some 500 }
        (mergedIds oneAssocDeal oneAssoc),
       [.dealGet, .assocGet, .lineItemsBatch]) :=
  (claim_C4 { parameters := none } { dealId := some "D1" } "D1" oneAssocDeal oneAssoc
    { name := "Error", message := "boom", status := some 500 }
    (.ok { results := none }) (by decide) (by decide)).1

/-- C6 as frozen is false for whitespace-only dealIds: the handler's
falsy test accepts the string " ", so the run proceeds to the external
calls (non-empty trace) and here even succeeds. -/
theorem claim_C6_counterexample :
    (main { parameters := none } { dealId := some " " } wsDealEnv).1.success = true ∧
    (main { parameters := none } { dealId := some " " } wsDealEnv).2 =
      [.dealGet, .assocGet] := by
  exact ⟨by decide, by decide⟩

/-- C6 (amended): for every missing or empty dealId (JS-falsy;
whitespace-only strings are treated as present), and likewise whenever
the access token is missing, the handler returns `success=false` with
`data=[]` and a descriptive message, issuing no external call. -/
theorem claim_C6 :
    (∀ (ctx : Context) (params : Params) (env : Env),
       resolveDealId params ctx = none →
       main ctx params env = (validationResponse ctx params, []) ∧
       (validationResponse ctx params).success = false ∧
       (validationResponse ctx params).data = [] ∧
       (validationResponse ctx params).message = some "Deal ID is required") ∧
    (∀ (ctx : Context) (params : Params) (d : String)
       (deal : Except JsError DealResponse) (assoc : Except JsError AssocResponse)
       (li : Except JsError BatchResponse) (prods : Except JsError ProductsResponse),
       resolveDealId params ctx = some d →
       main ctx params ⟨false, deal, assoc, li, prods⟩ = (configResponse, []) ∧
       configResponse.success = false ∧ configResponse.data = [] ∧
       configResponse.message = some "Server configuration error: missing access token") := by
  constructor
  · intro ctx params env h
    exact ⟨by simp [main, h], rfl, rfl, rfl⟩
  · intro ctx params d deal assoc li prods h
    exact ⟨by simp [main, h], rfl, rfl, rfl⟩

/-- Witness for C6 at concrete invocations (missing dealId; missing token). -/
theorem claim_C6_witness :
    main { parameters := none } { dealId := none } wsDealEnv =
      (validationResponse { parameters := none } { dealId := none }, []) ∧
    main { parameters := none } { dealId := some "D1" }
      ⟨false, .ok oneAssocDeal, oneAssoc, .ok { results := none }, .ok { results := none }⟩ =
      (configResponse, []) :=
  ⟨(claim_C6.1 { parameters := none } { dealId := none } wsDealEnv (by decide)).1,
   (claim_C6.2 { parameters := none } { dealId := some "D1" } "D1" (.ok oneAssocDeal)
     oneAssoc (.ok { results := none }) (.ok { results := none }) (by decide)).1⟩

/-- C9: an empty merged identifier set is a valid outcome — the handler
returns `success=true`, `data=[]`, an informational message, and stops
after the two association sources. -/
theorem claim_C9 :
    ∀ (ctx : Context) (params : Params) (d : String) (dr : DealResponse)
      (assoc : Except JsError AssocResponse) (li : Except JsError BatchResponse)
      (prods : Except JsError ProductsResponse),
      resolveDealId params ctx = some d →
      mergedIds dr assoc = [] →
      main ctx params ⟨true, .ok dr, assoc, li, prods⟩ =
        (noLineItemsResponse, [.dealGet, .assocGet]) ∧
      noLineItemsResponse.success = true ∧
      noLineItemsResponse.data = [] ∧
      noLineItemsResponse.message = some "No line items found for this deal" := by
  intro ctx params d dr assoc li prods h1 h2
  exact ⟨by simp [main, h1, h2], rfl, rfl, rfl⟩

/-- Witness for C9 at a concrete invocation with zero associations. -/
theorem claim_C9_witness :
    main { parameters := none } { dealId := some "D1" }
      ⟨true, .ok oneAssocDeal, .ok { results := some [] },
       .ok { results := none }, .ok { results := none }⟩ =
      (noLineItemsResponse, [.dealGet, .assocGet]) :=
  (claim_C9 { parameters := none } { dealId := some "D1" } "D1" oneAssocDeal
    (.ok { results := some [] }) (.ok { results := none }) (.ok { results := none })
    (by decide) (by decide)).1

/-- C10: the response `debug` field echoes the full raw context and
parameters exactly on the missing-dealId validation path, and on no
other path. -/
theorem claim_C10 :
    ∀ (ctx : Context) (params : Params) (env : Env),
      (main ctx params env).1.debug = some { context := ctx, parameters := params } ↔
        resolveDealId params ctx = none := by
  intro ctx params env
  rcases main_cases ctx params env with ⟨hr, heq⟩ | ⟨hr, hcase⟩
  · rw [heq]
    simp [validationResponse, hr]
  · constructor
    · intro hdebug
      exfalso
      rcases hcase with h | ⟨d, e, h⟩ | h | ⟨e, ids, h⟩ | ⟨e, h⟩ | ⟨vs, n, k, h⟩ <;>
        rw [h] at hdebug <;>
        simp [configResponse, dealFailureResponse, noLineItemsResponse,
          batchFailureResponse, unexpectedResponse] at hdebug
    · intro h
      exact absurd h hr

/-- C3: one output view per fetched record, in input order — the data
array's length equals the batch result count; when formatting a record
throws, the minimal placeholder (id preserved or synthesized,
productName "Error loading item", numerics zeroed, product null) takes
its place at that position. Stated for records whose id slot converts to
a string (`idSafe`), which is what "id preserved or synthesized"
presupposes. -/
theorem claim_C3 :
    (∀ (ctx : Context) (params : Params) (d : String) (dr : DealResponse)
       (assoc : Except JsError AssocResponse) (liResp : BatchResponse)
       (prods : Except JsError ProductsResponse),
       resolveDealId params ctx = some d →
       mergedIds dr assoc ≠ [] →
       (∀ o ∈ liResp.results.getD [], idSafe o) →
       (main ctx params ⟨true, .ok dr, assoc, .ok liResp, prods⟩).1.success = true ∧
       (main ctx params ⟨true, .ok dr, assoc, .ok liResp, prods⟩).1.data.length =
         (liResp.results.getD []).length) ∧
    (∀ (pm : ProductsMap) (items : List (Option RawLineItem)) (i : Nat),
       (∀ o ∈ items, idSafe o) →
       ∃ vs, formatAll pm i items = .ok vs ∧ vs.length = items.length ∧
         ∀ (j : Nat) (hj : j < items.length) (hv : j < vs.length),
           (∃ e, formatOne pm (i + j) (items.get ⟨j, hj⟩) = .error e) →
           placeholderView (i + j) (items.get ⟨j, hj⟩) = .ok (vs.get ⟨j, hv⟩)) ∧
    (∀ (i : Nat) (item : Option RawLineItem), idSafe item →
       ∃ s, placeholderView i item =
         .ok { id := s, productId := "", productName := "Error loading item",
               quantity := 0, price := 0, amount := 0, product := none,
               ticketId := "", readyForFulfillment := none }) := by
  refine ⟨?_, fun pm items i h => formatAll_ok pm items i h, placeholderView_ok⟩
  intro ctx params d dr assoc liResp prods h1 h2 h3
  rw [main_ok_batch ctx params d dr assoc liResp prods h1 h2]
  obtain ⟨vs', hf', hlen, _⟩ :=
    formatAll_ok (productsPhase liResp prods).1 (liResp.results.getD []) 0 h3
  rcases runAfterBatch_eq (mergedIds dr assoc) liResp prods with
    ⟨vs, hf, heq⟩ | ⟨e, hf, heq⟩
  · rw [heq]
    rw [hf] at hf'
    injection hf' with hvv
    subst hvv
    exact ⟨rfl, hlen⟩
  · rw [hf] at hf'
    cases hf'

/-- Witness for C3 at a concrete invocation with one well-formed record. -/
theorem claim_C3_witness :
    (main { parameters := none } { dealId := some "D1" }
       ⟨true, .ok oneAssocDeal, oneAssoc, .ok goodBatch, .ok { results := none }⟩).1.success
        = true ∧
    (main { parameters := none } { dealId := some "D1" }
       ⟨true, .ok oneAssocDeal, oneAssoc, .ok goodBatch, .ok { results := none }⟩).1.data.length
        = (goodBatch.results.getD []).length :=
  claim_C3.1 { parameters := none } { dealId := some "D1" } "D1" oneAssocDeal oneAssoc
    goodBatch (.ok { results := none }) (by decide) (by decide) (by decide)

/-- C5: a failed product batch fetch is non-fatal — the envelope still has
`success=true` and every view carries `product = null`; and whenever a
line item's product reference misses the fetched map, that view's
`product` is null with `productName` following the fallback chain: own
name, else product name, else "Unknown Product". -/
theorem claim_C5 :
    (∀ (ctx : Context) (params : Params) (d : String) (dr : DealResponse)
       (assoc : Except JsError AssocResponse) (liResp : BatchResponse) (e : JsError),
       resolveDealId params ctx = some d →
       mergedIds dr assoc ≠ [] →
       (∀ o ∈ liResp.results.getD [], idSafe o) →
       (main ctx params ⟨true, .ok dr, assoc, .ok liResp, .error e⟩).1.success = true ∧
       (∀ v ∈ (main ctx params ⟨true, .ok dr, assoc, .ok liResp, .error e⟩).1.data,
          v.product = none)) ∧
    (∀ (pm : ProductsMap) (i : Nat) (item : Option RawLineItem) (v : LineItemView),
       formatOne pm i item = .ok v →
       v.productName = productNameRule (optProp LineItemProps.name item)
         (mapLookup pm (jsOrStr (optProductId item) "")) ∧
       (mapLookup pm (jsOrStr (optProductId item) "") = none → v.product = none)) := by
  constructor
  · intro ctx params d dr assoc liResp e h1 h2 h3
    rw [main_ok_batch ctx params d dr assoc liResp (.error e) h1 h2]
    obtain ⟨vs', hf', _, _⟩ :=
      formatAll_ok (productsPhase liResp (.error e)).1 (liResp.results.getD []) 0 h3
    rcases runAfterBatch_eq (mergedIds dr assoc) liResp (.error e) with
      ⟨vs, hf, heq⟩ | ⟨e', hf, heq⟩
    · rw [heq]
      refine ⟨rfl, ?_⟩
      rw [productsPhase_error_pm liResp e] at hf
      exact formatAll_nil_pm_product_none (liResp.results.getD []) 0 vs hf
    · rw [hf] at hf'
      cases hf'
  · intro pm i item v h
    have hs := formatOne_ok_spec pm i item v h
    exact ⟨hs.2, fun hnone => hs.1.trans hnone⟩

/-- Witness for C5 at a concrete invocation whose product fetch fails. -/
theorem claim_C5_witness :
    (main { parameters := none } { dealId := some "D1" }
       ⟨true, .ok oneAssocDeal, oneAssoc, .ok goodBatch,
        .error { name := "Error", message := "products down", status := some 502 }⟩).1.success
      = true :=
  (claim_C5.1 { parameters := none } { dealId := some "D1" } "D1" oneAssocDeal oneAssoc
    goodBatch { name := "Error", message := "products down", status := some 502 }
    (by decide) (by decide) (by decide)).1

/-- C7: every invocation returns a well-formed envelope — on every failing
path the (always-an-array) data field is the empty list, and a throw
escaping the per-item formatting catch is mapped by the top-level catch
to the generic failure envelope of the same shape. -/
theorem claim_C7 :
    (∀ (ctx : Context) (params : Params) (env : Env),
       (main ctx params env).1.success = false → (main ctx params env).1.data = []) ∧
    (∀ (ctx : Context) (params : Params) (d : String) (dr : DealResponse)
       (assoc : Except JsError AssocResponse) (liResp : BatchResponse)
       (prods : Except JsError ProductsResponse) (e : JsError),
       resolveDealId params ctx = some d →
       mergedIds dr assoc ≠ [] →
       formatAll (productsPhase liResp prods).1 0 (liResp.results.getD []) = .error e →
       main ctx params ⟨true, .ok dr, assoc, .ok liResp, prods⟩ =
         (unexpectedResponse e, (productsPhase liResp prods).2) ∧
       (unexpectedResponse e).success = false ∧
       (unexpectedResponse e).data = []) := by
  constructor
  · intro ctx params env
    rcases main_cases ctx params env with ⟨_, heq⟩ | ⟨_, hcase⟩
    · rw [heq]
      intro
      rfl
    · rcases hcase with h | ⟨d, e, h⟩ | h | ⟨e, ids, h⟩ | ⟨e, h⟩ | ⟨vs, n, k, h⟩ <;> rw [h]
      · intro; rfl
      · intro; rfl
      · intro hs; exact absurd hs (by simp [noLineItemsResponse])
      · intro; rfl
      · intro; rfl
      · intro hs; exact absurd hs (by simp)
  · intro ctx params d dr assoc liResp prods e h1 h2 h3
    rw [main_ok_batch ctx params d dr assoc liResp prods h1 h2]
    rcases runAfterBatch_eq (mergedIds dr assoc) liResp prods with
      ⟨vs, hf, heq⟩ | ⟨e', hf, heq⟩
    · rw [h3] at hf
      cases hf
    · rw [h3] at hf
      injection hf with he
      subst he
      exact ⟨heq, rfl, rfl⟩

/-- Witness for C7 at a concrete invocation whose only record has a
throwing id, so both the happy path and the placeholder throw. -/
theorem claim_C7_witness :
    main { parameters := none } { dealId := some "D1" }
      ⟨true, .ok oneAssocDeal, oneAssoc, .ok badBatch, .ok { results := none }⟩ =
      (unexpectedResponse exoticCoercionError,
       (productsPhase badBatch (.ok { results := none })).2) :=
  (claim_C7.2 { parameters := none } { dealId := some "D1" } "D1" oneAssocDeal oneAssoc
    badBatch (.ok { results := none }) exoticCoercionError
    (by decide) (by decide) (by decide)).1

/-- C8 as frozen is false: the coercions preserve negative raw numerals,
so quantity is not always ≥ 0 and price/amount are not always
non-negative. -/
theorem claim_C8_counterexample :
    coerceQuantity (.str "-2") = .ok (-2) ∧ (-2 : Int) < 0 ∧
    coercePrice (.str "-2.5") = .ok (mkRat (-5) 2) ∧ mkRat (-5) 2 < 0 := by
  exact ⟨by decide, by decide, by decide, by decide⟩

/-- C8 (amended): quantity coerces to an integer (not necessarily ≥ 0)
defaulting to 1 when the raw value is missing, empty, or unparsable;
price and amount coerce to numbers (not necessarily non-negative)
defaulting to 0 when missing, empty, or unparsable, and otherwise equal
to the parsed value. The theorem characterizes quantity at every parse
outcome, including the `|| 1` backstop mapping a parsed 0 to 1. -/
theorem claim_C8 :
    coerceQuantity .undefined = .ok 1 ∧
    coerceQuantity (.str "") = .ok 1 ∧
    (∀ s : String, parseIntJS s = none → coerceQuantity (.str s) = .ok 1) ∧
    (∀ s : String, parseIntJS s = some 0 → coerceQuantity (.str s) = .ok 1) ∧
    (∀ (s : String) (n : Int), parseIntJS s = some n → n ≠ 0 → s ≠ "" →
      coerceQuantity (.str s) = .ok n) ∧
    coercePrice .undefined = .ok 0 ∧
    coercePrice (.str "") = .ok 0 ∧
    (∀ s : String, parseFloatJS s = none → coercePrice (.str s) = .ok 0) ∧
    (∀ (s : String) (q : ℚ), parseFloatJS s = some q → s ≠ "" →
      coercePrice (.str s) = .ok q) := by
  refine ⟨by decide, by decide, ?_, ?_, ?_, by decide, by decide, ?_, ?_⟩
  · intro s h
    by_cases hs : s = ""
    · subst hs
      decide
    · simp [coerceQuantity, jsOr, truthy, hs, jsToString, h]
  · intro s h
    by_cases hs : s = ""
    · subst hs
      exact absurd h (by decide)
    · simp [coerceQuantity, jsOr, truthy, hs, jsToString, h]
  · intro s n h hn hs
    simp [coerceQuantity, jsOr, truthy, hs, jsToString, h, hn]
  · intro s h
    by_cases hs : s = ""
    · subst hs
      decide
    · simp [coercePrice, jsOr, truthy, hs, jsToString, h]
  · intro s q h hs
    simp [coercePrice, jsOr, truthy, hs, jsToString, h]

/-- Witness for C8 at concrete raw values, one per parse outcome. -/
theorem claim_C8_witness :
    coerceQuantity (.str "abc") = .ok 1 ∧
    coerceQuantity (.str "0") = .ok 1 ∧
    coerceQuantity (.str "5") = .ok 5 ∧
    coercePrice (.str "x") = .ok 0 ∧
    coercePrice (.str "2.5") = .ok (mkRat 5 2) :=
  ⟨claim_C8.2.2.1 "abc" (by decide),
   claim_C8.2.2.2.1 "0" (by decide),
   claim_C8.2.2.2.2.1 "5" 5 (by decide) (by decide) (by decide),
   claim_C8.2.2.2.2.2.2.2.1 "x" (by decide),
   claim_C8.2.2.2.2.2.2.2.2 "2.5" (mkRat 5 2) (by decide) (by decide)⟩

end DealLineItems
